import Mathlib

/-!
# CardCarouselGeneric: pagination state of the card carousel

Shallow embedding of `src/components/CardCarouselGeneric/index.js`.

JavaScript numbers that occur here (`cards.length`, `window.innerWidth`,
`currentIndex`, `cardsPerView`, the page number of a dot) are integers, far
inside the range in which double arithmetic is exact, so they are modelled
by `Int`; `cards.length` is a `Nat`.  The component reads the card list only
through `cards.length`, so the list is represented by its length.
-/

namespace CardCarouselGeneric

/-! ## Pure pagination arithmetic (lines 20-28 and 51-71) -/

/-- The value `updateCardsPerView` passes to `setCardsPerView` for a window of
width `innerWidth` (lines 20-28). -/
def updateCardsPerView (innerWidth : Int) : Int :=
  if innerWidth ≥ 1024 then 3
  else if innerWidth ≥ 768 then 2
  else 1

/-- Line 51: `Math.max(0, cards.length - cardsPerView)`. -/
def maxIndex (cardsLength : Nat) (cardsPerView : Int) : Int :=
  max 0 ((cardsLength : Int) - cardsPerView)

/-- The state updater of `nextSlide` (lines 53-58), applied to `prev`. -/
def nextSlide (cardsLength : Nat) (cardsPerView : Int) (prev : Int) : Int :=
  let nextIndex := prev + cardsPerView
  if nextIndex > maxIndex cardsLength cardsPerView then 0 else nextIndex

/-- The state updater of `prevSlide` (lines 60-65), applied to `prev`. -/
def prevSlide (cardsLength : Nat) (cardsPerView : Int) (prev : Int) : Int :=
  let nextIndex := prev - cardsPerView
  if nextIndex < 0 then maxIndex cardsLength cardsPerView else nextIndex

/-- The value `goToSlide(page)` passes to `setCurrentIndex` (lines 68-71). -/
def goToSlide (cardsLength : Nat) (cardsPerView : Int) (page : Int) : Int :=
  let index := page * cardsPerView
  max 0 (min index (maxIndex cardsLength cardsPerView))

/-- Line 190: the number of navigation dots,
`Math.ceil(cards.length / cardsPerView)`, with the exact quotient. -/
def dotCount (cardsLength : Nat) (cardsPerView : Int) : Int :=
  Int.ceil ((cardsLength : ℚ) / (cardsPerView : ℚ))

/-- The specification's `clamp(x, lo, hi)`: `x` forced into `[lo, hi]`. -/
def clamp (x lo hi : Int) : Int :=
  if x < lo then lo else if x > hi then hi else x

/-- The three navigation requests of the component. -/
inductive Nav where
  | next : Nav
  | previous : Nav
  | goToPage (page : Int) : Nav
  deriving DecidableEq, Repr

/-- New `currentIndex` after one navigation request. -/
def applyNav (cardsLength : Nat) (cardsPerView : Int) (cur : Int) : Nav → Int
  | Nav.next => nextSlide cardsLength cardsPerView cur
  | Nav.previous => prevSlide cardsLength cardsPerView cur
  | Nav.goToPage page => goToSlide cardsLength cardsPerView page

/-- The `currentIndex` reached from the initial `useState(0)` by a finite
sequence of navigation requests, `cards.length` and `cardsPerView` fixed. -/
def runNav (cardsLength : Nat) (cardsPerView : Int) (ops : List Nav) : Int :=
  ops.foldl (applyNav cardsLength cardsPerView) 0

/-- A request that is not `previous()`. -/
def Nav.isForward : Nav → Bool
  | Nav.previous => false
  | _ => true

/-- The page-boundary condition of the specification: `currentIndex` is a
multiple of `cardsPerView`, or it is `maxIndex`.  (`currentIndex` is never
negative, so the JavaScript remainder and `%` on `Int` agree.) -/
def onPageBoundary (cardsLength : Nat) (cardsPerView : Int) (cur : Int) : Prop :=
  cur % cardsPerView = 0 ∨ cur = maxIndex cardsLength cardsPerView

instance (cardsLength : Nat) (cardsPerView cur : Int) :
    Decidable (onPageBoundary cardsLength cardsPerView cur) := by
  unfold onPageBoundary; infer_instance

/-- The `currentIndex` after `k` invocations of `nextSlide` from `0`: what the
interval timer alone produces. -/
def autoAdvance (cardsLength : Nat) (cardsPerView : Int) : Nat → Int
  | 0 => 0
  | k + 1 => nextSlide cardsLength cardsPerView (autoAdvance cardsLength cardsPerView k)

/-- Card `j` lies in the visible window `[currentIndex, currentIndex +
cardsPerView)`: the track is shifted left by `currentIndex` card widths
(line 92) and each card is `1 / cardsPerView` of the stage wide (line 125). -/
def visible (cardsPerView : Int) (cur : Int) (j : Nat) : Prop :=
  cur ≤ (j : Int) ∧ (j : Int) < cur + cardsPerView

instance (cardsPerView cur : Int) (j : Nat) : Decidable (visible cardsPerView cur j) := by
  unfold visible; infer_instance

/-! ## The component: state, timer and event handlers (lines 13-17, 30-34, 73-90, 110-111, 150-207) -/

/-- A repeating timer registered by `setInterval(nextSlide, 5000)` and not yet
cleared.  The callback is the `nextSlide` of the render that registered it,
so it keeps that render's `cardsPerView` (and with it that render's
`maxIndex`, `cards.length` being fixed). -/
structure Interval where
  handle : Nat
  cardsPerView : Int
  deriving DecidableEq, Repr

/-- State of one mounted carousel over a card list of length `cardsLength`:
the two `useState` cells, the `autoScrollRef` cell (`none` is `null`), the
timers of the window that are live, and the next handle `setInterval` will
return (handles are positive). -/
structure Carousel where
  cardsLength : Nat
  currentIndex : Int
  cardsPerView : Int
  autoScrollRef : Option Nat
  intervals : List Interval
  nextHandle : Nat
  deriving DecidableEq, Repr

namespace Carousel

/-- The first render: `useState(0)`, `useState(3)`, `useRef(null)`. -/
def initial (cardsLength : Nat) : Carousel :=
  { cardsLength := cardsLength, currentIndex := 0, cardsPerView := 3,
    autoScrollRef := none, intervals := [], nextHandle := 1 }

/-- Line 51 for the current render. -/
def maxIndex (s : Carousel) : Int :=
  CardCarouselGeneric.maxIndex s.cardsLength s.cardsPerView

/-- Lines 74-76: register a new timer and store its handle in the ref. -/
def startAutoScroll (s : Carousel) : Carousel :=
  { s with
    autoScrollRef := some s.nextHandle
    intervals := s.intervals ++ [{ handle := s.nextHandle, cardsPerView := s.cardsPerView }]
    nextHandle := s.nextHandle + 1 }

/-- Lines 78-80: clear the timer whose handle the ref holds, when the ref is
truthy (not `null`, not `0`); the ref itself is left as it is. -/
def stopAutoScroll (s : Carousel) : Carousel :=
  match s.autoScrollRef with
  | some h =>
    if h ≠ 0 then { s with intervals := s.intervals.filter (fun iv => iv.handle ≠ h) } else s
  | none => s

/-- Lines 82-85. -/
def resetAutoScroll (s : Carousel) : Carousel :=
  startAutoScroll (stopAutoScroll s)

/-- The resize listener (lines 20-34) followed by the re-render: `cardsPerView`
is replaced by the breakpoint value, `currentIndex` is not touched, and when
`maxIndex` has changed the effect of lines 87-90 runs its cleanup
(`stopAutoScroll`) and then `startAutoScroll` again. -/
def resize (innerWidth : Int) (s : Carousel) : Carousel :=
  let s1 := { s with cardsPerView := updateCardsPerView innerWidth }
  if s1.maxIndex ≠ s.maxIndex then startAutoScroll (stopAutoScroll s1) else s1

/-- Mounting in a window of width `innerWidth`: after the first render the
effects run in order, `updateCardsPerView()` (line 31, a state update that
takes effect at the next render) and `startAutoScroll()` (line 88, with the
first render's closure); then the component re-renders as after a resize. -/
def mount (cardsLength : Nat) (innerWidth : Int) : Carousel :=
  resize innerWidth (startAutoScroll (initial cardsLength))

end Carousel

/-- What can happen to a mounted carousel. -/
inductive Event where
  | mouseEnter : Event
  | mouseLeave : Event
  | clickPrev : Event
  | clickNext : Event
  | clickDot (page : Int) : Event
  | resize (innerWidth : Int) : Event
  | tick (handle : Nat) : Event
  deriving DecidableEq, Repr

/-- One event handled by the component.  A tick of a handle that is not live
does nothing; a tick of a live timer runs the `nextSlide` it captured. -/
def step (s : Carousel) : Event → Carousel
  | Event.mouseEnter => s.stopAutoScroll
  | Event.mouseLeave => s.resetAutoScroll
  | Event.clickPrev =>
    Carousel.resetAutoScroll
      { s with currentIndex := prevSlide s.cardsLength s.cardsPerView s.currentIndex }
  | Event.clickNext =>
    Carousel.resetAutoScroll
      { s with currentIndex := nextSlide s.cardsLength s.cardsPerView s.currentIndex }
  | Event.clickDot page =>
    Carousel.resetAutoScroll
      { s with currentIndex := goToSlide s.cardsLength s.cardsPerView page }
  | Event.resize innerWidth => s.resize innerWidth
  | Event.tick h =>
    match s.intervals.find? (fun iv => iv.handle = h) with
    | some iv =>
      { s with currentIndex := nextSlide s.cardsLength iv.cardsPerView s.currentIndex }
    | none => s

/-- The state after a sequence of events. -/
def run (s : Carousel) (trace : List Event) : Carousel :=
  trace.foldl step s

/-- Whether the pointer is inside the carousel wrapper after `trace`, when it
was (`b = true`) or was not inside before: a pointer-enter puts it inside, a
pointer-leave outside, every other event leaves it where it is. -/
def pointerInsideFrom (b : Bool) : List Event → Bool
  | [] => b
  | Event.mouseEnter :: es => pointerInsideFrom true es
  | Event.mouseLeave :: es => pointerInsideFrom false es
  | _ :: es => pointerInsideFrom b es

/-- The pointer has entered the wrapper and not left since (it starts
outside). -/
def pointerInside (trace : List Event) : Bool :=
  pointerInsideFrom false trace

/-- Handling `e` in state `s` calls `startAutoScroll`. -/
def restartsTimer (s : Carousel) : Event → Bool
  | Event.mouseLeave => true
  | Event.clickPrev => true
  | Event.clickNext => true
  | Event.clickDot _ => true
  | Event.resize innerWidth =>
    decide (CardCarouselGeneric.maxIndex s.cardsLength (updateCardsPerView innerWidth) ≠ s.maxIndex)
  | Event.mouseEnter => false
  | Event.tick _ => false

/-- Starting in `s` with flag `b`, the flag after `trace`: set by a
pointer-enter, cleared by every later event that restarts the timer. -/
def suspendedAfter (s : Carousel) (b : Bool) : List Event → Bool
  | [] => b
  | e :: es =>
    suspendedAfter (step s e)
      (if e = Event.mouseEnter then true else if restartsTimer s e then false else b) es

/-- Every live timer is the one whose handle `autoScrollRef` holds, handles
are positive, and so is the next handle to be handed out. -/
def TimerInv (s : Carousel) : Prop :=
  (∀ iv ∈ s.intervals, s.autoScrollRef = some iv.handle ∧ iv.handle ≠ 0) ∧ 1 ≤ s.nextHandle

end CardCarouselGeneric

namespace CardCarouselGeneric

/-! ## Helper lemmas -/

theorem maxIndex_nonneg (n : Nat) (c : Int) : 0 ≤ maxIndex n c := by
  unfold maxIndex; omega

theorem maxIndex_eq_zero (n : Nat) (c : Int) (h : (n : Int) ≤ c) : maxIndex n c = 0 := by
  unfold maxIndex; omega

theorem nextSlide_bounds (n : Nat) (c cur : Int) (hc : 0 ≤ c) (h0 : 0 ≤ cur) :
    0 ≤ nextSlide n c cur ∧ nextSlide n c cur ≤ maxIndex n c := by
  have hm := maxIndex_nonneg n c
  unfold nextSlide
  simp only
  split <;> omega

theorem prevSlide_bounds (n : Nat) (c cur : Int) (hc : 0 ≤ c) (h1 : cur ≤ maxIndex n c) :
    0 ≤ prevSlide n c cur ∧ prevSlide n c cur ≤ maxIndex n c := by
  have hm := maxIndex_nonneg n c
  unfold prevSlide
  simp only
  split <;> omega

theorem goToSlide_bounds (n : Nat) (c page : Int) :
    0 ≤ goToSlide n c page ∧ goToSlide n c page ≤ maxIndex n c := by
  have hm := maxIndex_nonneg n c
  unfold goToSlide
  simp only
  omega

theorem applyNav_bounds (n : Nat) (c cur : Int) (hc : 0 ≤ c) (op : Nav)
    (h : 0 ≤ cur ∧ cur ≤ maxIndex n c) :
    0 ≤ applyNav n c cur op ∧ applyNav n c cur op ≤ maxIndex n c := by
  cases op with
  | next => exact nextSlide_bounds n c cur hc h.1
  | previous => exact prevSlide_bounds n c cur hc h.2
  | goToPage page => exact goToSlide_bounds n c page

/-- A property of `currentIndex` that holds at the start and is kept by every
request of a list holds after the whole list. -/
theorem foldl_applyNav_inv (n : Nat) (c : Int) (P : Int → Prop) (ops : List Nav)
    (hstep : ∀ cur op, op ∈ ops → P cur → P (applyNav n c cur op)) :
    ∀ cur, P cur → P (ops.foldl (applyNav n c) cur) := by
  induction ops with
  | nil => intro cur h; exact h
  | cons op rest ih =>
    intro cur h
    simp only [List.foldl_cons]
    apply ih
    · intro cur1 op1 hmem hP
      exact hstep cur1 op1 (List.mem_cons_of_mem _ hmem) hP
    · exact hstep cur op (List.mem_cons_self _ _) h

theorem runNav_bounds (n : Nat) (c : Int) (hc : 0 ≤ c) (ops : List Nav) :
    0 ≤ runNav n c ops ∧ runNav n c ops ≤ maxIndex n c := by
  unfold runNav
  apply foldl_applyNav_inv n c (fun cur => 0 ≤ cur ∧ cur ≤ maxIndex n c) ops
  · intro cur op _ h
    exact applyNav_bounds n c cur hc op h
  · exact ⟨le_refl 0, maxIndex_nonneg n c⟩

theorem startAutoScroll_view (s : Carousel) :
    s.startAutoScroll.cardsLength = s.cardsLength ∧
      s.startAutoScroll.currentIndex = s.currentIndex ∧
      s.startAutoScroll.cardsPerView = s.cardsPerView :=
  ⟨rfl, rfl, rfl⟩

theorem stopAutoScroll_view (s : Carousel) :
    s.stopAutoScroll.cardsLength = s.cardsLength ∧
      s.stopAutoScroll.currentIndex = s.currentIndex ∧
      s.stopAutoScroll.cardsPerView = s.cardsPerView ∧
      s.stopAutoScroll.autoScrollRef = s.autoScrollRef ∧
      s.stopAutoScroll.nextHandle = s.nextHandle := by
  unfold Carousel.stopAutoScroll
  split
  · split <;> exact ⟨rfl, rfl, rfl, rfl, rfl⟩
  · exact ⟨rfl, rfl, rfl, rfl, rfl⟩

theorem resetAutoScroll_view (s : Carousel) :
    s.resetAutoScroll.cardsLength = s.cardsLength ∧
      s.resetAutoScroll.currentIndex = s.currentIndex ∧
      s.resetAutoScroll.cardsPerView = s.cardsPerView := by
  have h1 := startAutoScroll_view s.stopAutoScroll
  have h2 := stopAutoScroll_view s
  unfold Carousel.resetAutoScroll
  exact ⟨h1.1.trans h2.1, h1.2.1.trans h2.2.1, h1.2.2.trans h2.2.2.1⟩

theorem resize_view (w : Int) (s : Carousel) :
    (s.resize w).cardsLength = s.cardsLength ∧
      (s.resize w).currentIndex = s.currentIndex ∧
      (s.resize w).cardsPerView = updateCardsPerView w := by
  unfold Carousel.resize
  simp only
  split
  · have h1 := resetAutoScroll_view { s with cardsPerView := updateCardsPerView w }
    exact h1
  · exact ⟨rfl, rfl, rfl⟩

/-- The three navigation buttons change `currentIndex` as the corresponding
navigation request does, and keep `cards.length` and `cardsPerView`. -/
theorem step_click_currentIndex (s : Carousel) :
    (step s Event.clickNext).currentIndex
        = applyNav s.cardsLength s.cardsPerView s.currentIndex Nav.next ∧
      (step s Event.clickPrev).currentIndex
        = applyNav s.cardsLength s.cardsPerView s.currentIndex Nav.previous ∧
      ∀ page : Int, (step s (Event.clickDot page)).currentIndex
        = applyNav s.cardsLength s.cardsPerView s.currentIndex (Nav.goToPage page) :=
  ⟨(resetAutoScroll_view _).2.1, (resetAutoScroll_view _).2.1,
    fun _ => (resetAutoScroll_view _).2.1⟩

/-! ## Bounds of `currentIndex` -/

/-- C1: for every card-list length `n` and every `cardsPerView` in {1, 2, 3},
`maxIndex` is `max(0, n - cardsPerView)`, and the `currentIndex` reached from
`0` by any finite sequence of `next()`, `previous()` and `goToPage(p)` lies in
`[0, maxIndex]`. -/
theorem currentIndex_within_bounds (n : Nat) (cardsPerView : Int)
    (h : cardsPerView = 1 ∨ cardsPerView = 2 ∨ cardsPerView = 3) (ops : List Nav) :
    maxIndex n cardsPerView = max 0 ((n : Int) - cardsPerView) ∧
      0 ≤ runNav n cardsPerView ops ∧
      runNav n cardsPerView ops ≤ maxIndex n cardsPerView := by
  refine ⟨rfl, ?_⟩
  exact runNav_bounds n cardsPerView (by omega) ops

theorem currentIndex_within_bounds_witness :
    ((3 : Int) = 1 ∨ (3 : Int) = 2 ∨ (3 : Int) = 3) ∧
      maxIndex 7 3 = max 0 (((7 : Nat) : Int) - 3) ∧
      0 ≤ runNav 7 3 [Nav.next, Nav.goToPage 5, Nav.previous, Nav.previous] ∧
      runNav 7 3 [Nav.next, Nav.goToPage 5, Nav.previous, Nav.previous] ≤ maxIndex 7 3 :=
  ⟨by decide,
    currentIndex_within_bounds 7 3 (by decide)
      [Nav.next, Nav.goToPage 5, Nav.previous, Nav.previous]⟩

/-! ## The navigation operations -/

/-- C4: `next()` sets `currentIndex` to `currentIndex + cardsPerView` when that
sum is at most `maxIndex` and to `0` otherwise; at `currentIndex = maxIndex`
it yields `0`; with 7 cards and `cardsPerView = 3`, `maxIndex` is 4 and the
sequence from `0` is 0, 3, 0. -/
theorem nextSlide_spec (n : Nat) (cardsPerView : Int)
    (h : cardsPerView = 1 ∨ cardsPerView = 2 ∨ cardsPerView = 3) (cur : Int) :
    nextSlide n cardsPerView cur =
        (if cur + cardsPerView ≤ maxIndex n cardsPerView then cur + cardsPerView else 0) ∧
      nextSlide n cardsPerView (maxIndex n cardsPerView) = 0 ∧
      maxIndex 7 3 = 4 ∧
      [autoAdvance 7 3 0, autoAdvance 7 3 1, autoAdvance 7 3 2] = [0, 3, 0] := by
  refine ⟨?_, ?_, by decide, by decide⟩
  · unfold nextSlide
    simp only
    split <;> split <;> omega
  · unfold nextSlide
    simp only
    split <;> omega

theorem nextSlide_spec_witness :
    ((3 : Int) = 1 ∨ (3 : Int) = 2 ∨ (3 : Int) = 3) ∧
      nextSlide 7 3 3 = (if (3 : Int) + 3 ≤ maxIndex 7 3 then 3 + 3 else 0) ∧
      nextSlide 7 3 (maxIndex 7 3) = 0 ∧
      maxIndex 7 3 = 4 ∧
      [autoAdvance 7 3 0, autoAdvance 7 3 1, autoAdvance 7 3 2] = [0, 3, 0] :=
  ⟨by decide, nextSlide_spec 7 3 (by decide) 3⟩

/-- C5: `previous()` sets `currentIndex` to `currentIndex - cardsPerView` when
that difference is not negative and to `maxIndex` otherwise; at
`currentIndex = 0` it yields `maxIndex`. -/
theorem prevSlide_spec (n : Nat) (cardsPerView : Int)
    (h : cardsPerView = 1 ∨ cardsPerView = 2 ∨ cardsPerView = 3) (cur : Int) :
    prevSlide n cardsPerView cur =
        (if cur - cardsPerView ≥ 0 then cur - cardsPerView else maxIndex n cardsPerView) ∧
      prevSlide n cardsPerView 0 = maxIndex n cardsPerView := by
  constructor
  · unfold prevSlide
    simp only
    split <;> split <;> omega
  · unfold prevSlide
    simp only
    split <;> omega

theorem prevSlide_spec_witness :
    ((2 : Int) = 1 ∨ (2 : Int) = 2 ∨ (2 : Int) = 3) ∧
      prevSlide 7 2 4 = (if (4 : Int) - 2 ≥ 0 then 4 - 2 else maxIndex 7 2) ∧
      prevSlide 7 2 0 = maxIndex 7 2 :=
  ⟨by decide, prevSlide_spec 7 2 (by decide) 4⟩

/-- C6: for every integer page `p`, `goToPage(p)` sets `currentIndex` to
`clamp(p * cardsPerView, 0, maxIndex)` whatever `currentIndex` was before, and
the result lies in `[0, maxIndex]`. -/
theorem goToSlide_spec (n : Nat) (cardsPerView : Int)
    (_h : cardsPerView = 1 ∨ cardsPerView = 2 ∨ cardsPerView = 3) (p : Int) :
    (∀ cur : Int, applyNav n cardsPerView cur (Nav.goToPage p) =
        clamp (p * cardsPerView) 0 (maxIndex n cardsPerView)) ∧
      0 ≤ goToSlide n cardsPerView p ∧
      goToSlide n cardsPerView p ≤ maxIndex n cardsPerView := by
  have hm := maxIndex_nonneg n cardsPerView
  refine ⟨?_, goToSlide_bounds n cardsPerView p⟩
  intro cur
  show goToSlide n cardsPerView p = _
  unfold goToSlide clamp
  simp only
  split
  · omega
  · split <;> omega

theorem goToSlide_spec_witness :
    ((3 : Int) = 1 ∨ (3 : Int) = 2 ∨ (3 : Int) = 3) ∧
      (∀ cur : Int, applyNav 7 3 cur (Nav.goToPage (-2)) = clamp (-2 * 3) 0 (maxIndex 7 3)) ∧
      0 ≤ goToSlide 7 3 (-2) ∧ goToSlide 7 3 (-2) ≤ maxIndex 7 3 :=
  ⟨by decide, goToSlide_spec 7 3 (by decide) (-2)⟩

/-- C7: for every viewport width `w`, `recomputeCardsPerView` sets
`cardsPerView` to 1 if `w < 768`, to 2 if `768 ≤ w ≤ 1023` and to 3 if
`w ≥ 1024`; 767 gives 1, 768 and 1023 give 2, 1024 gives 3, and the result is
always 1, 2 or 3. -/
theorem updateCardsPerView_spec (w : Int) (s : Carousel) :
    (s.resize w).cardsPerView = updateCardsPerView w ∧
      updateCardsPerView w = (if w < 768 then 1 else if w ≤ 1023 then 2 else 3) ∧
      updateCardsPerView 767 = 1 ∧ updateCardsPerView 768 = 2 ∧
      updateCardsPerView 1023 = 2 ∧ updateCardsPerView 1024 = 3 ∧
      (updateCardsPerView w = 1 ∨ updateCardsPerView w = 2 ∨ updateCardsPerView w = 3) := by
  refine ⟨?_, ?_, by decide, by decide, by decide, by decide, ?_⟩
  · exact (resize_view w s).2.2
  · unfold updateCardsPerView
    split
    · rw [if_neg (by omega), if_neg (by omega)]
    · split
      · rw [if_neg (by omega), if_pos (by omega)]
      · rw [if_pos (by omega)]
  · unfold updateCardsPerView
    split
    · exact Or.inr (Or.inr rfl)
    · split
      · exact Or.inr (Or.inl rfl)
      · exact Or.inl rfl

/-- C8: for `cardsPerView` in {1, 2, 3} and a card list no longer than
`cardsPerView` (the empty list included), `maxIndex` is 0 and `next()`,
`previous()` and `goToPage(p)` for every integer `p` leave `currentIndex = 0`
unchanged, also in sequence; and with at least one card the number of
pagination dots is 1. -/
theorem short_list_single_page (n : Nat) (cardsPerView : Int)
    (_h : cardsPerView = 1 ∨ cardsPerView = 2 ∨ cardsPerView = 3)
    (hn : (n : Int) ≤ cardsPerView) :
    maxIndex n cardsPerView = 0 ∧
      nextSlide n cardsPerView 0 = 0 ∧
      prevSlide n cardsPerView 0 = 0 ∧
      (∀ p : Int, goToSlide n cardsPerView p = 0) ∧
      (∀ ops : List Nav, runNav n cardsPerView ops = 0) ∧
      (1 ≤ n → dotCount n cardsPerView = 1) := by
  have hm := maxIndex_eq_zero n cardsPerView hn
  refine ⟨hm, ?_, ?_, ?_, ?_, ?_⟩
  · have := nextSlide_bounds n cardsPerView 0 (by omega) (le_refl 0)
    omega
  · have := prevSlide_bounds n cardsPerView 0 (by omega) (maxIndex_nonneg n cardsPerView)
    omega
  · intro p
    have := goToSlide_bounds n cardsPerView p
    omega
  · intro ops
    have := runNav_bounds n cardsPerView (by omega) ops
    omega
  · intro h1
    unfold dotCount
    rw [Int.ceil_eq_iff]
    have hcpos : (0 : ℚ) < (cardsPerView : ℚ) := by
      have : (0 : Int) < cardsPerView := by omega
      exact_mod_cast this
    have hnpos : (0 : ℚ) < (n : ℚ) := by
      have : 0 < n := h1
      exact_mod_cast this
    have hle : (n : ℚ) ≤ (cardsPerView : ℚ) := by exact_mod_cast hn
    constructor
    · have : (0 : ℚ) < (n : ℚ) / (cardsPerView : ℚ) := div_pos hnpos hcpos
      simpa using this
    · have : (n : ℚ) / (cardsPerView : ℚ) ≤ 1 := (div_le_one hcpos).mpr hle
      simpa using this

theorem short_list_single_page_witness :
    ((3 : Int) = 1 ∨ (3 : Int) = 2 ∨ (3 : Int) = 3) ∧ (((2 : Nat) : Int) ≤ 3) ∧
      maxIndex 2 3 = 0 ∧ nextSlide 2 3 0 = 0 ∧ prevSlide 2 3 0 = 0 ∧
      (∀ p : Int, goToSlide 2 3 p = 0) ∧ (∀ ops : List Nav, runNav 2 3 ops = 0) ∧
      dotCount 2 3 = 1 :=
  have t := short_list_single_page 2 3 (by decide) (by decide)
  ⟨by decide, by decide, t.1, t.2.1, t.2.2.1, t.2.2.2.1, t.2.2.2.2.1, t.2.2.2.2.2 (by decide)⟩

/-! ## Page boundaries -/

/-- C2, counterexample: with 7 cards and `cardsPerView = 3` (`maxIndex = 4`),
`previous()` twice from `0` gives 4 and then 1, which is neither a multiple
of 3 nor `maxIndex`. -/
theorem previous_leaves_page_boundary :
    ((3 : Int) = 1 ∨ (3 : Int) = 2 ∨ (3 : Int) = 3) ∧
      runNav 7 3 [Nav.previous] = 4 ∧
      runNav 7 3 [Nav.previous, Nav.previous] = 1 ∧
      ¬ onPageBoundary 7 3 (runNav 7 3 [Nav.previous, Nav.previous]) := by
  decide

/-- C2, amended: for every `n` and `cardsPerView` in {1, 2, 3}, every
`currentIndex` reached from `0` by `next()`, `previous()` and `goToPage(p)` is
congruent modulo `cardsPerView` to `0` or to `maxIndex`; and when the sequence
contains no `previous()` it is on a page boundary (a multiple of
`cardsPerView`, or `maxIndex`). -/
theorem currentIndex_page_residue (n : Nat) (cardsPerView : Int)
    (h : cardsPerView = 1 ∨ cardsPerView = 2 ∨ cardsPerView = 3) (ops : List Nav) :
    (runNav n cardsPerView ops % cardsPerView = 0 ∨
        runNav n cardsPerView ops % cardsPerView = maxIndex n cardsPerView % cardsPerView) ∧
      ((∀ op ∈ ops, Nav.isForward op = true) →
        onPageBoundary n cardsPerView (runNav n cardsPerView ops)) := by
  have hm := maxIndex_nonneg n cardsPerView
  constructor
  · unfold runNav
    apply foldl_applyNav_inv n cardsPerView
      (fun cur => cur % cardsPerView = 0 ∨ cur % cardsPerView = maxIndex n cardsPerView % cardsPerView)
      ops
    · intro cur op _ hP
      cases op with
      | next =>
        simp only [applyNav, nextSlide] at hP ⊢
        rcases h with rfl | rfl | rfl <;> split <;> omega
      | previous =>
        simp only [applyNav, prevSlide] at hP ⊢
        rcases h with rfl | rfl | rfl <;> split <;> omega
      | goToPage page =>
        simp only [applyNav, goToSlide] at hP ⊢
        rcases h with rfl | rfl | rfl <;> omega
    · left
      rcases h with rfl | rfl | rfl <;> omega
  · intro hfw
    unfold runNav
    apply foldl_applyNav_inv n cardsPerView (fun cur => onPageBoundary n cardsPerView cur) ops
    · intro cur op hmem hP
      have hop := hfw op hmem
      unfold onPageBoundary at hP ⊢
      cases op with
      | next =>
        simp only [applyNav, nextSlide] at hP ⊢
        rcases h with rfl | rfl | rfl <;> split <;> omega
      | previous => exact absurd hop (by decide)
      | goToPage page =>
        simp only [applyNav, goToSlide] at hP ⊢
        rcases h with rfl | rfl | rfl <;> omega
    · left
      rcases h with rfl | rfl | rfl <;> omega

theorem currentIndex_page_residue_witness :
    ((3 : Int) = 1 ∨ (3 : Int) = 2 ∨ (3 : Int) = 3) ∧
      (runNav 7 3 [Nav.previous, Nav.previous] % 3 = 0 ∨
        runNav 7 3 [Nav.previous, Nav.previous] % 3 = maxIndex 7 3 % 3) ∧
      onPageBoundary 7 3 (runNav 7 3 [Nav.next, Nav.goToPage 2]) :=
  ⟨by decide,
    (currentIndex_page_residue 7 3 (by decide) [Nav.previous, Nav.previous]).1,
    (currentIndex_page_residue 7 3 (by decide) [Nav.next, Nav.goToPage 2]).2 (by decide)⟩

/-! ## Resizing -/

/-- C3, the code at the failing input: 7 cards in a window 500 wide
(`cardsPerView = 1`, `maxIndex = 6`); six clicks on "next" reach
`currentIndex = 6`, which satisfies `0 ≤ currentIndex ≤ maxIndex`; a resize to
width 1024 sets `cardsPerView = 3` (`maxIndex = 4`) and leaves
`currentIndex = 6`, so the bound `currentIndex ≤ maxIndex` that
`recomputeCardsPerView` should preserve is broken, and the visible window
`[6, 9)` runs past the end of the 7 cards. -/
theorem resize_can_leave_bounds :
    (run (Carousel.mount 7 500) (List.replicate 6 Event.clickNext)).cardsLength = 7 ∧
      (run (Carousel.mount 7 500) (List.replicate 6 Event.clickNext)).cardsPerView = 1 ∧
      (run (Carousel.mount 7 500) (List.replicate 6 Event.clickNext)).currentIndex = 6 ∧
      (run (Carousel.mount 7 500) (List.replicate 6 Event.clickNext)).maxIndex = 6 ∧
      ((run (Carousel.mount 7 500) (List.replicate 6 Event.clickNext)).resize 1024).cardsPerView
        = 3 ∧
      ((run (Carousel.mount 7 500) (List.replicate 6 Event.clickNext)).resize 1024).maxIndex
        = 4 ∧
      ((run (Carousel.mount 7 500) (List.replicate 6 Event.clickNext)).resize 1024).currentIndex
        = 6 ∧
      ¬ ((run (Carousel.mount 7 500) (List.replicate 6 Event.clickNext)).resize 1024).currentIndex
        ≤ ((run (Carousel.mount 7 500) (List.replicate 6 Event.clickNext)).resize 1024).maxIndex ∧
      ¬ visible
        ((run (Carousel.mount 7 500) (List.replicate 6 Event.clickNext)).resize 1024).cardsPerView
        ((run (Carousel.mount 7 500) (List.replicate 6 Event.clickNext)).resize 1024).currentIndex
        5 ∧
      (7 : Int) <
        ((run (Carousel.mount 7 500) (List.replicate 6 Event.clickNext)).resize 1024).currentIndex
        + ((run (Carousel.mount 7 500) (List.replicate 6 Event.clickNext)).resize 1024).cardsPerView := by
  decide

/-! ## Auto-advance alone -/

/-- While `k * cardsPerView` does not exceed `maxIndex`, `k` invocations of
`nextSlide` from `0` reach exactly `k * cardsPerView`. -/
theorem autoAdvance_eq_mul (n : Nat) (c : Int) (h : c = 1 ∨ c = 2 ∨ c = 3) :
    ∀ k : Nat, (k : Int) * c ≤ maxIndex n c → autoAdvance n c k = (k : Int) * c := by
  intro k
  induction k with
  | zero => intro _; simp [autoAdvance]
  | succ k ih =>
    intro hk
    have hprev : autoAdvance n c k = (k : Int) * c := by
      apply ih
      rcases h with rfl | rfl | rfl <;> push_cast at hk ⊢ <;> omega
    simp only [autoAdvance, nextSlide, hprev]
    rcases h with rfl | rfl | rfl <;> push_cast at hk ⊢ <;> split <;> omega

/-- With 7 cards and `cardsPerView = 3` the timer alternates between 0 and 3. -/
theorem autoAdvance_seven_three (k : Nat) :
    autoAdvance 7 3 k = 0 ∨ autoAdvance 7 3 k = 3 := by
  induction k with
  | zero => left; rfl
  | succ k ih =>
    rcases ih with h0 | h3
    · right; simp only [autoAdvance, h0]; decide
    · left; simp only [autoAdvance, h3]; decide

/-- C10, counterexample: with 7 cards and `cardsPerView = 3`, card 6 (the last
one) is in the visible window of no state of the sequence obtained from
`currentIndex = 0` by repeated `next()`. -/
theorem last_card_never_auto_shown :
    ((3 : Int) = 1 ∨ (3 : Int) = 2 ∨ (3 : Int) = 3) ∧ 6 < 7 ∧
      ¬ ∃ k : Nat, visible 3 (autoAdvance 7 3 k) 6 := by
  refine ⟨by decide, by decide, ?_⟩
  rintro ⟨k, hk⟩
  unfold visible at hk
  rcases autoAdvance_seven_three k with h | h <;> rw [h] at hk <;> omega

/-- C10, amended: for every `n ≥ 1`, `cardsPerView` in {1, 2, 3} and card
position `j < n` with `j < (maxIndex / cardsPerView + 1) * cardsPerView`
(integer division), some state of the sequence obtained from `currentIndex = 0`
by repeated `next()` has `j` in its visible window; the condition on `j` holds
for every `j < n` when `n ≤ cardsPerView` or `cardsPerView` divides `n`. -/
theorem autoAdvance_shows_full_pages (n : Nat) (cardsPerView : Int)
    (h : cardsPerView = 1 ∨ cardsPerView = 2 ∨ cardsPerView = 3) (j : Nat) (hj : j < n) :
    ((j : Int) < (maxIndex n cardsPerView / cardsPerView + 1) * cardsPerView →
        ∃ k : Nat, visible cardsPerView (autoAdvance n cardsPerView k) j) ∧
      ((n : Int) ≤ cardsPerView ∨ (n : Int) % cardsPerView = 0 →
        (j : Int) < (maxIndex n cardsPerView / cardsPerView + 1) * cardsPerView) := by
  have hm := maxIndex_nonneg n cardsPerView
  constructor
  · intro hpage
    rcases h with rfl | rfl | rfl
    · refine ⟨j / 1, ?_⟩
      have hk := autoAdvance_eq_mul n 1 (by decide) (j / 1) (by omega)
      unfold visible
      rw [hk]
      omega
    · refine ⟨j / 2, ?_⟩
      have hk := autoAdvance_eq_mul n 2 (by decide) (j / 2) (by omega)
      unfold visible
      rw [hk]
      omega
    · refine ⟨j / 3, ?_⟩
      have hk := autoAdvance_eq_mul n 3 (by decide) (j / 3) (by omega)
      unfold visible
      rw [hk]
      omega
  · intro hn
    unfold maxIndex at hm ⊢
    rcases h with rfl | rfl | rfl <;> omega

theorem autoAdvance_shows_full_pages_witness :
    ((3 : Int) = 1 ∨ (3 : Int) = 2 ∨ (3 : Int) = 3) ∧ 5 < 7 ∧
      (∃ k : Nat, visible 3 (autoAdvance 7 3 k) 5) ∧
      (((5 : Nat) : Int) < (maxIndex 6 3 / 3 + 1) * 3) :=
  ⟨by decide, by decide,
    (autoAdvance_shows_full_pages 7 3 (by decide) 5 (by decide)).1 (by decide),
    (autoAdvance_shows_full_pages 6 3 (by decide) 5 (by decide)).2 (by decide)⟩

/-! ## The auto-advance timer -/

theorem stopAutoScroll_clears (s : Carousel) (hinv : TimerInv s) :
    s.stopAutoScroll.intervals = [] := by
  unfold Carousel.stopAutoScroll
  split
  · rename_i h href
    split
    · simp only [List.filter_eq_nil_iff]
      intro iv hiv
      have := (hinv.1 iv hiv).1
      rw [href] at this
      simp only [Option.some.injEq] at this
      simp [this]
    · rename_i hz
      cases hs : s.intervals with
      | nil => rfl
      | cons iv rest =>
        exfalso
        have hmem : iv ∈ s.intervals := by rw [hs]; exact List.mem_cons_self _ _
        have h1 := hinv.1 iv hmem
        rw [href] at h1
        simp only [Option.some.injEq] at h1
        apply hz
        rw [h1.1]
        exact h1.2
  · rename_i href
    cases hs : s.intervals with
    | nil => rfl
    | cons iv rest =>
      exfalso
      have hmem : iv ∈ s.intervals := by rw [hs]; exact List.mem_cons_self _ _
      have h1 := hinv.1 iv hmem
      rw [href] at h1
      cases h1.1

theorem stopAutoScroll_inv (s : Carousel) (hinv : TimerInv s) : TimerInv s.stopAutoScroll := by
  have hc := stopAutoScroll_clears s hinv
  have hv := stopAutoScroll_view s
  refine ⟨?_, ?_⟩
  · intro iv hiv
    rw [hc] at hiv
    cases hiv
  · rw [hv.2.2.2.2]; exact hinv.2

theorem startAutoScroll_inv (s : Carousel) (hempty : s.intervals = []) (hn : 1 ≤ s.nextHandle) :
    TimerInv s.startAutoScroll := by
  unfold Carousel.startAutoScroll TimerInv
  simp only [hempty, List.nil_append, List.mem_singleton]
  refine ⟨?_, by omega⟩
  intro iv hiv
  subst hiv
  exact ⟨rfl, by simp only [ne_eq]; omega⟩

theorem resetAutoScroll_inv (s : Carousel) (hinv : TimerInv s) : TimerInv s.resetAutoScroll := by
  unfold Carousel.resetAutoScroll
  exact startAutoScroll_inv _ (stopAutoScroll_clears s hinv) (stopAutoScroll_inv s hinv).2

theorem resize_inv (w : Int) (s : Carousel) (hinv : TimerInv s) : TimerInv (s.resize w) := by
  unfold Carousel.resize
  simp only
  split
  · exact resetAutoScroll_inv { s with cardsPerView := updateCardsPerView w } hinv
  · exact hinv

theorem step_inv (s : Carousel) (e : Event) (hinv : TimerInv s) : TimerInv (step s e) := by
  cases e with
  | mouseEnter => exact stopAutoScroll_inv s hinv
  | mouseLeave => exact resetAutoScroll_inv s hinv
  | clickPrev => exact resetAutoScroll_inv _ hinv
  | clickNext => exact resetAutoScroll_inv _ hinv
  | clickDot page => exact resetAutoScroll_inv _ hinv
  | resize w => exact resize_inv w s hinv
  | tick hd =>
    simp only [step]
    split
    · exact hinv
    · exact hinv

theorem mount_inv (n : Nat) (w : Int) : TimerInv (Carousel.mount n w) := by
  unfold Carousel.mount
  apply resize_inv
  exact startAutoScroll_inv _ rfl (le_refl 1)

/-- An event that neither is a pointer-enter nor restarts the timer leaves the
list of live timers as it is. -/
theorem step_intervals_of_quiet (s : Carousel) (e : Event)
    (hq : restartsTimer s e = false) (he : e ≠ Event.mouseEnter) :
    (step s e).intervals = s.intervals := by
  cases e with
  | mouseEnter => exact absurd rfl he
  | mouseLeave => cases hq
  | clickPrev => cases hq
  | clickNext => cases hq
  | clickDot page => cases hq
  | resize w =>
    simp only [restartsTimer, decide_eq_false_iff_not, ne_eq, not_not] at hq
    show (s.resize w).intervals = s.intervals
    unfold Carousel.resize
    simp only
    rw [if_neg]
    simp only [ne_eq, not_not]
    exact hq
  | tick hd =>
    simp only [step]
    split <;> rfl

theorem suspendedAfter_intervals (trace : List Event) :
    ∀ (s : Carousel) (b : Bool), TimerInv s → (b = true → s.intervals = []) →
      suspendedAfter s b trace = true → (run s trace).intervals = [] := by
  induction trace with
  | nil =>
    intro s b _ hb hs
    exact hb hs
  | cons e es ih =>
    intro s b hinv hb hs
    simp only [suspendedAfter] at hs
    show (run (step s e) es).intervals = []
    refine ih (step s e) _ (step_inv s e hinv) ?_ hs
    intro hflag
    by_cases he : e = Event.mouseEnter
    · subst he
      exact stopAutoScroll_clears s hinv
    · rw [if_neg he] at hflag
      cases hq : restartsTimer s e with
      | true => rw [hq] at hflag; simp at hflag
      | false =>
        rw [hq] at hflag
        simp only [Bool.false_eq_true, if_false] at hflag
        rw [step_intervals_of_quiet s e hq he]
        exact hb hflag

theorem suspendedAfter_pointerInside (trace : List Event) :
    ∀ (s : Carousel) (b p : Bool), (b = true → p = true) →
      suspendedAfter s b trace = true → pointerInsideFrom p trace = true := by
  induction trace with
  | nil =>
    intro s b p hbp hs
    exact hbp hs
  | cons e es ih =>
    intro s b p hbp hs
    simp only [suspendedAfter] at hs
    cases e with
    | mouseEnter => exact ih _ _ true (fun _ => rfl) hs
    | mouseLeave =>
      refine ih _ _ false ?_ hs
      simp [restartsTimer]
    | clickPrev =>
      refine ih _ _ p ?_ hs
      simp [restartsTimer]
    | clickNext =>
      refine ih _ _ p ?_ hs
      simp [restartsTimer]
    | clickDot page =>
      refine ih _ _ p ?_ hs
      simp [restartsTimer]
    | resize w =>
      refine ih _ _ p ?_ hs
      intro hflag
      apply hbp
      by_cases hr : restartsTimer s (Event.resize w) = true
      · simp [hr] at hflag
      · simpa [hr] using hflag
    | tick hd =>
      refine ih _ _ p ?_ hs
      intro hflag
      apply hbp
      simpa [restartsTimer] using hflag

/-- C9, counterexample: 7 cards mounted in a window 1024 wide; the pointer
enters (the timer is cleared) and, the pointer still inside, the window is
resized to width 500, which changes `maxIndex` from 4 to 6: the effect starts
a new timer (handle 2), and its tick moves `currentIndex` from 0 to 1. -/
theorem hover_timer_restarted_by_resize :
    pointerInside [Event.mouseEnter, Event.resize 500] = true ∧
      (run (Carousel.mount 7 1024) [Event.mouseEnter]).intervals = [] ∧
      (run (Carousel.mount 7 1024) [Event.mouseEnter, Event.resize 500]).intervals
        = [{ handle := 2, cardsPerView := 1 }] ∧
      (run (Carousel.mount 7 1024) [Event.mouseEnter, Event.resize 500]).currentIndex = 0 ∧
      (run (Carousel.mount 7 1024)
        [Event.mouseEnter, Event.resize 500, Event.tick 2]).currentIndex = 1 := by
  decide

/-- C9, amended: in every state reached from mount in which the pointer has
entered the carousel and since then there has been no pointer-leave, no manual
navigation click and no resize that changes `maxIndex`, the pointer is still
inside, no interval timer is live, and no timer tick changes the state (so
`currentIndex` stays). -/
theorem hover_suspends_until_restart (n : Nat) (w : Int) (trace : List Event)
    (h : suspendedAfter (Carousel.mount n w) false trace = true) :
    pointerInside trace = true ∧
      (run (Carousel.mount n w) trace).intervals = [] ∧
      ∀ hd : Nat, step (run (Carousel.mount n w) trace) (Event.tick hd)
        = run (Carousel.mount n w) trace := by
  have hint := suspendedAfter_intervals trace (Carousel.mount n w) false (mount_inv n w)
    (fun hf => by cases hf) h
  refine ⟨?_, hint, ?_⟩
  · exact suspendedAfter_pointerInside trace (Carousel.mount n w) false false (fun hf => hf) h
  · intro hd
    simp only [step, hint, List.find?_nil]

theorem hover_suspends_until_restart_witness :
    suspendedAfter (Carousel.mount 7 1024) false
        [Event.clickNext, Event.mouseEnter, Event.tick 2, Event.resize 1100] = true ∧
      pointerInside [Event.clickNext, Event.mouseEnter, Event.tick 2, Event.resize 1100] = true ∧
      (run (Carousel.mount 7 1024)
        [Event.clickNext, Event.mouseEnter, Event.tick 2, Event.resize 1100]).intervals = [] ∧
      ∀ hd : Nat,
        step (run (Carousel.mount 7 1024)
            [Event.clickNext, Event.mouseEnter, Event.tick 2, Event.resize 1100]) (Event.tick hd)
          = run (Carousel.mount 7 1024)
            [Event.clickNext, Event.mouseEnter, Event.tick 2, Event.resize 1100] :=
  ⟨by decide,
    hover_suspends_until_restart 7 1024
      [Event.clickNext, Event.mouseEnter, Event.tick 2, Event.resize 1100] (by decide)⟩

end CardCarouselGeneric
